import Mathlib

/-!
Verification of the syncplay-tauri client against its specification.

The development shallowly embeds the relevant Rust sources:
`src-tauri/src/network/messages.rs` (protocol grammar, serde encode/decode),
`src-tauri/src/client/playlist.rs`, `src-tauri/src/client/sync.rs`,
`src-tauri/src/client/local_state.rs`, and the ignoring-on-the-fly /
state-reply / autoplay logic of `src-tauri/src/commands/connection.rs`.

Machine floats (`f64`) are modelled as rationals, machine integers as `Nat`
with explicit saturation where the source saturates, JSON documents as an
inductive `Json` tree whose objects are association lists (the post-parse
key-unique map of `serde_json`), and fallible decoding as `Option`.
-/

namespace Syncplay

/-- JSON values as parsed by `serde_json`: objects are association lists. -/
inductive Json where
  | null : Json
  | bool : Bool → Json
  | num : ℚ → Json
  | str : String → Json
  | arr : List Json → Json
  | obj : List (String × Json) → Json

/-- First-match lookup in a JSON object (post-parse maps have unique keys). -/
def Json.lookup (k : String) : List (String × Json) → Option Json
  | [] => none
  | p :: rest => if k = p.1 then some p.2 else Json.lookup k rest

/-- Serialize one optional struct field, skipped when absent
(`skip_serializing_if = "Option::is_none"`). -/
def optField (k : String) : Option Json → List (String × Json)
  | none => []
  | some j => [(k, j)]

/-- Decode an `Option<bool>` field: absent or `null` is `none`. -/
def decOptBool : Option Json → Option (Option Bool)
  | none => some none
  | some Json.null => some none
  | some (Json.bool b) => some (some b)
  | some _ => none

/-- Decode an `Option<String>` field: absent or `null` is `none`. -/
def decOptStr : Option Json → Option (Option String)
  | none => some none
  | some Json.null => some none
  | some (Json.str s) => some (some s)
  | some _ => none

/-- Decode an `Option<f64>` field: absent or `null` is `none`. -/
def decOptNum : Option Json → Option (Option ℚ)
  | none => some none
  | some Json.null => some none
  | some (Json.num q) => some (some q)
  | some _ => none

/-- Decode an optional unsigned-integer field (`Option<u64>`, `Option<usize>`,
`Option<u32>`): the JSON number must be a nonnegative integer. -/
def decOptNat : Option Json → Option (Option ℕ)
  | none => some none
  | some Json.null => some none
  | some (Json.num q) =>
      if q.den = 1 ∧ 0 ≤ q.num then some (some q.num.toNat) else none
  | some _ => none

/-- Decode an `Option<Value>` field: serde maps JSON `null` to `None`. -/
def decOptVal : Option Json → Option (Option Json)
  | none => some none
  | some Json.null => some none
  | some j => some (some j)

/-- Decode an optional nested struct field with the given struct decoder. -/
def decOptWith (dec : Json → Option α) : Option Json → Option (Option α)
  | none => some none
  | some Json.null => some none
  | some j => (dec j).map some

/-- Decode a required `String` field. -/
def decReqStr : Option Json → Option String
  | some (Json.str s) => some s
  | _ => none

/-- Decode a required `bool` field. -/
def decReqBool : Option Json → Option Bool
  | some (Json.bool b) => some b
  | _ => none

/-- Decode a required `f64` field. -/
def decReqNum : Option Json → Option ℚ
  | some (Json.num q) => some q
  | _ => none

/-- Decode the elements of a JSON array as strings, failing on any
non-string element. -/
def decStrs : List Json → Option (List String)
  | [] => some []
  | j :: rest =>
      match j with
      | Json.str s => (decStrs rest).map (fun r => s :: r)
      | _ => none

/-- Decode a `Vec<String>`. -/
def decStrList : Json → Option (List String)
  | Json.arr l => decStrs l
  | _ => none

/-- Decode every value of a JSON object with `dec`, keeping keys
(`HashMap<String, T>` deserialization). -/
def decEntries (dec : Json → Option α) : List (String × Json) → Option (List (String × α))
  | [] => some []
  | p :: rest => do
      let a ← dec p.2
      let r ← decEntries dec rest
      pure ((p.1, a) :: r)

/-- The `RoomInfo` struct of `messages.rs`. -/
structure RoomInfo where
  name : String
  password : Option String
  deriving DecidableEq

/-- The `ClientFeatures` struct of `messages.rs` (serialized camelCase). -/
structure ClientFeatures where
  shared_playlists : Option Bool
  chat : Option Bool
  ready_state : Option Bool
  managed_rooms : Option Bool
  persistent_rooms : Option Bool
  deriving DecidableEq

/-- The `HelloMessage` struct of `messages.rs`. -/
structure HelloMessage where
  username : String
  password : Option String
  room : Option RoomInfo
  version : String
  realversion : String
  features : Option ClientFeatures
  motd : Option String
  deriving DecidableEq

/-- The `FileInfo` struct of `messages.rs`. -/
structure FileInfo where
  name : Option String
  size : Option ℕ
  duration : Option ℚ
  deriving DecidableEq

/-- The `UserEvent` struct of `messages.rs`: `joined`, `left` plus a
flattened overflow map. -/
structure UserEvent where
  joined : Option Bool
  left : Option Bool
  extra : List (String × Json)

/-- The `UserUpdate` struct of `messages.rs` (serialized camelCase). -/
structure UserUpdate where
  room : Option RoomInfo
  file : Option FileInfo
  event : Option UserEvent
  controller : Option Bool
  is_ready : Option Bool
  features : Option Json

/-- The `ReadyState` struct of `messages.rs` (serialized camelCase). -/
structure ReadyState where
  username : Option String
  is_ready : Option Bool
  manually_initiated : Option Bool
  set_by : Option String
  deriving DecidableEq

/-- The `PlaylistIndexUpdate` struct of `messages.rs` (serialized camelCase). -/
structure PlaylistIndexUpdate where
  user : Option String
  index : Option ℕ
  deriving DecidableEq

/-- The `PlaylistChange` struct of `messages.rs` (serialized camelCase). -/
structure PlaylistChange where
  user : Option String
  files : List String
  deriving DecidableEq

/-- The `SetMessage` struct of `messages.rs` (serialized camelCase). -/
structure SetMessage where
  room : Option RoomInfo
  file : Option FileInfo
  user : Option (List (String × UserUpdate))
  ready : Option ReadyState
  playlist_index : Option PlaylistIndexUpdate
  playlist_change : Option PlaylistChange
  features : Option Json

/-- The `PlayState` struct of `messages.rs` (serialized camelCase). -/
structure PlayState where
  position : ℚ
  paused : Bool
  do_seek : Option Bool
  set_by : Option String
  deriving DecidableEq

/-- The `PingInfo` struct of `messages.rs` (serialized camelCase). -/
structure PingInfo where
  latency_calculation : Option ℚ
  client_latency_calculation : Option ℚ
  client_rtt : Option ℚ
  server_rtt : Option ℚ
  deriving DecidableEq

/-- The `IgnoringInfo` struct of `messages.rs` (field names kept verbatim). -/
structure IgnoringInfo where
  server : Option ℕ
  client : Option ℕ
  deriving DecidableEq

/-- The `StateMessage` struct of `messages.rs` (serialized camelCase). -/
structure StateMessage where
  playstate : Option PlayState
  ping : Option PingInfo
  ignoring_on_the_fly : Option IgnoringInfo
  deriving DecidableEq

/-- The `UserInfo` struct of `messages.rs` (serialized camelCase). -/
structure UserInfo where
  file : Option FileInfo
  controller : Option Bool
  is_ready : Option Bool
  features : Option ClientFeatures
  deriving DecidableEq

/-- `ListResponse = HashMap<String, HashMap<String, UserInfo>>`. -/
def ListResponse := List (String × List (String × UserInfo))

/-- The `ChatMessage` struct of `messages.rs`. -/
structure ChatMessage where
  username : String
  message : String
  deriving DecidableEq

/-- The `ErrorMessage` struct of `messages.rs`. -/
structure ErrorMessage where
  message : String
  deriving DecidableEq

/-- The `TLSMessage` struct of `messages.rs` (`start_tls` renamed `startTLS`). -/
structure TLSMessage where
  start_tls : Option String
  deriving DecidableEq

/-- The `ProtocolMessage` envelope enum of `messages.rs`. -/
inductive ProtocolMessage where
  | Hello : HelloMessage → ProtocolMessage
  | Set : SetMessage → ProtocolMessage
  | State : StateMessage → ProtocolMessage
  | Chat : ChatMessage → ProtocolMessage
  | Error : ErrorMessage → ProtocolMessage
  | TLS : TLSMessage → ProtocolMessage
  | List : Option ListResponse → ProtocolMessage

end Syncplay

namespace Syncplay

/-- Serialize `RoomInfo` as serde derive does (absent fields skipped). -/
def RoomInfo.serialize (r : RoomInfo) : Json :=
  Json.obj ([(("name"), Json.str r.name)] ++ optField ("password") (r.password.map Json.str))

/-- Deserialize `RoomInfo`. -/
def RoomInfo.deserialize : Json → Option RoomInfo
  | Json.obj o => do
      let name ← decReqStr (Json.lookup ("name") o)
      let password ← decOptStr (Json.lookup ("password") o)
      pure ⟨name, password⟩
  | _ => none

/-- Serialize `ClientFeatures` (camelCase keys). -/
def ClientFeatures.serialize (c : ClientFeatures) : Json :=
  Json.obj (optField ("sharedPlaylists") (c.shared_playlists.map Json.bool) ++
    optField ("chat") (c.chat.map Json.bool) ++
    optField ("readyState") (c.ready_state.map Json.bool) ++
    optField ("managedRooms") (c.managed_rooms.map Json.bool) ++
    optField ("persistentRooms") (c.persistent_rooms.map Json.bool))

/-- Deserialize `ClientFeatures`. -/
def ClientFeatures.deserialize : Json → Option ClientFeatures
  | Json.obj o => do
      let sp ← decOptBool (Json.lookup ("sharedPlaylists") o)
      let ch ← decOptBool (Json.lookup ("chat") o)
      let rs ← decOptBool (Json.lookup ("readyState") o)
      let mr ← decOptBool (Json.lookup ("managedRooms") o)
      let pr ← decOptBool (Json.lookup ("persistentRooms") o)
      pure ⟨sp, ch, rs, mr, pr⟩
  | _ => none

/-- Serialize `HelloMessage`. -/
def HelloMessage.serialize (h : HelloMessage) : Json :=
  Json.obj ([(("username"), Json.str h.username)] ++
    optField ("password") (h.password.map Json.str) ++
    optField ("room") (h.room.map RoomInfo.serialize) ++
    [(("version"), Json.str h.version)] ++
    [(("realversion"), Json.str h.realversion)] ++
    optField ("features") (h.features.map ClientFeatures.serialize) ++
    optField ("motd") (h.motd.map Json.str))

/-- Deserialize `HelloMessage`. -/
def HelloMessage.deserialize : Json → Option HelloMessage
  | Json.obj o => do
      let username ← decReqStr (Json.lookup ("username") o)
      let password ← decOptStr (Json.lookup ("password") o)
      let room ← decOptWith RoomInfo.deserialize (Json.lookup ("room") o)
      let version ← decReqStr (Json.lookup ("version") o)
      let realversion ← decReqStr (Json.lookup ("realversion") o)
      let features ← decOptWith ClientFeatures.deserialize (Json.lookup ("features") o)
      let motd ← decOptStr (Json.lookup ("motd") o)
      pure ⟨username, password, room, version, realversion, features, motd⟩
  | _ => none

/-- Serialize `FileInfo`. -/
def FileInfo.serialize (f : FileInfo) : Json :=
  Json.obj (optField ("name") (f.name.map Json.str) ++
    optField ("size") (f.size.map (fun n => Json.num (n : ℚ))) ++
    optField ("duration") (f.duration.map Json.num))

/-- Deserialize `FileInfo`. -/
def FileInfo.deserialize : Json → Option FileInfo
  | Json.obj o => do
      let name ← decOptStr (Json.lookup ("name") o)
      let size ← decOptNat (Json.lookup ("size") o)
      let duration ← decOptNum (Json.lookup ("duration") o)
      pure ⟨name, size, duration⟩
  | _ => none

/-- Serialize `UserEvent`: named fields first, then the flattened extras. -/
def UserEvent.serialize (e : UserEvent) : Json :=
  Json.obj (optField ("joined") (e.joined.map Json.bool) ++
    optField ("left") (e.left.map Json.bool) ++ e.extra)

/-- Deserialize `UserEvent`: the named fields capture their keys, every other
key flows into the flattened `extra` map. -/
def UserEvent.deserialize : Json → Option UserEvent
  | Json.obj o => do
      let joined ← decOptBool (Json.lookup ("joined") o)
      let left ← decOptBool (Json.lookup ("left") o)
      let extra := o.filter (fun p => !(p.1 = ("joined") ∨ p.1 = ("left") : Bool))
      pure ⟨joined, left, extra⟩
  | _ => none

/-- Serialize `UserUpdate` (camelCase keys). -/
def UserUpdate.serialize (u : UserUpdate) : Json :=
  Json.obj (optField ("room") (u.room.map RoomInfo.serialize) ++
    optField ("file") (u.file.map FileInfo.serialize) ++
    optField ("event") (u.event.map UserEvent.serialize) ++
    optField ("controller") (u.controller.map Json.bool) ++
    optField ("isReady") (u.is_ready.map Json.bool) ++
    optField ("features") u.features)

/-- Deserialize `UserUpdate`. -/
def UserUpdate.deserialize : Json → Option UserUpdate
  | Json.obj o => do
      let room ← decOptWith RoomInfo.deserialize (Json.lookup ("room") o)
      let file ← decOptWith FileInfo.deserialize (Json.lookup ("file") o)
      let event ← decOptWith UserEvent.deserialize (Json.lookup ("event") o)
      let controller ← decOptBool (Json.lookup ("controller") o)
      let is_ready ← decOptBool (Json.lookup ("isReady") o)
      let features ← decOptVal (Json.lookup ("features") o)
      pure ⟨room, file, event, controller, is_ready, features⟩
  | _ => none

/-- Serialize `ReadyState` (camelCase keys). -/
def ReadyState.serialize (r : ReadyState) : Json :=
  Json.obj (optField ("username") (r.username.map Json.str) ++
    optField ("isReady") (r.is_ready.map Json.bool) ++
    optField ("manuallyInitiated") (r.manually_initiated.map Json.bool) ++
    optField ("setBy") (r.set_by.map Json.str))

/-- Deserialize `ReadyState`. -/
def ReadyState.deserialize : Json → Option ReadyState
  | Json.obj o => do
      let username ← decOptStr (Json.lookup ("username") o)
      let is_ready ← decOptBool (Json.lookup ("isReady") o)
      let manually_initiated ← decOptBool (Json.lookup ("manuallyInitiated") o)
      let set_by ← decOptStr (Json.lookup ("setBy") o)
      pure ⟨username, is_ready, manually_initiated, set_by⟩
  | _ => none

/-- Serialize `PlaylistIndexUpdate` (camelCase keys). -/
def PlaylistIndexUpdate.serialize (p : PlaylistIndexUpdate) : Json :=
  Json.obj (optField ("user") (p.user.map Json.str) ++
    optField ("index") (p.index.map (fun n => Json.num (n : ℚ))))

/-- Deserialize `PlaylistIndexUpdate`. -/
def PlaylistIndexUpdate.deserialize : Json → Option PlaylistIndexUpdate
  | Json.obj o => do
      let user ← decOptStr (Json.lookup ("user") o)
      let index ← decOptNat (Json.lookup ("index") o)
      pure ⟨user, index⟩
  | _ => none

/-- Serialize `PlaylistChange` (camelCase keys; `files` is required). -/
def PlaylistChange.serialize (p : PlaylistChange) : Json :=
  Json.obj (optField ("user") (p.user.map Json.str) ++
    [(("files"), Json.arr (p.files.map Json.str))])

/-- Deserialize `PlaylistChange`. -/
def PlaylistChange.deserialize : Json → Option PlaylistChange
  | Json.obj o => do
      let user ← decOptStr (Json.lookup ("user") o)
      let files ← (Json.lookup ("files") o).bind decStrList
      pure ⟨user, files⟩
  | _ => none

/-- Serialize `SetMessage` (camelCase keys). -/
def SetMessage.serialize (s : SetMessage) : Json :=
  Json.obj (optField ("room") (s.room.map RoomInfo.serialize) ++
    optField ("file") (s.file.map FileInfo.serialize) ++
    optField ("user")
      (s.user.map (fun us => Json.obj (us.map (fun p => (p.1, UserUpdate.serialize p.2))))) ++
    optField ("ready") (s.ready.map ReadyState.serialize) ++
    optField ("playlistIndex") (s.playlist_index.map PlaylistIndexUpdate.serialize) ++
    optField ("playlistChange") (s.playlist_change.map PlaylistChange.serialize) ++
    optField ("features") s.features)

/-- Deserialize the `HashMap<String, UserUpdate>` payload of `Set.user`. -/
def decUserMap : Json → Option (List (String × UserUpdate))
  | Json.obj o => decEntries UserUpdate.deserialize o
  | _ => none

/-- Deserialize `SetMessage`. -/
def SetMessage.deserialize : Json → Option SetMessage
  | Json.obj o => do
      let room ← decOptWith RoomInfo.deserialize (Json.lookup ("room") o)
      let file ← decOptWith FileInfo.deserialize (Json.lookup ("file") o)
      let user ← decOptWith decUserMap (Json.lookup ("user") o)
      let ready ← decOptWith ReadyState.deserialize (Json.lookup ("ready") o)
      let playlist_index ←
        decOptWith PlaylistIndexUpdate.deserialize (Json.lookup ("playlistIndex") o)
      let playlist_change ←
        decOptWith PlaylistChange.deserialize (Json.lookup ("playlistChange") o)
      let features ← decOptVal (Json.lookup ("features") o)
      pure ⟨room, file, user, ready, playlist_index, playlist_change, features⟩
  | _ => none

/-- Serialize `PlayState` (camelCase keys; `position`, `paused` required). -/
def PlayState.serialize (p : PlayState) : Json :=
  Json.obj ([(("position"), Json.num p.position)] ++
    [(("paused"), Json.bool p.paused)] ++
    optField ("doSeek") (p.do_seek.map Json.bool) ++
    optField ("setBy") (p.set_by.map Json.str))

/-- Deserialize `PlayState`. -/
def PlayState.deserialize : Json → Option PlayState
  | Json.obj o => do
      let position ← decReqNum (Json.lookup ("position") o)
      let paused ← decReqBool (Json.lookup ("paused") o)
      let do_seek ← decOptBool (Json.lookup ("doSeek") o)
      let set_by ← decOptStr (Json.lookup ("setBy") o)
      pure ⟨position, paused, do_seek, set_by⟩
  | _ => none

/-- Serialize `PingInfo` (camelCase keys). -/
def PingInfo.serialize (p : PingInfo) : Json :=
  Json.obj (optField ("latencyCalculation") (p.latency_calculation.map Json.num) ++
    optField ("clientLatencyCalculation") (p.client_latency_calculation.map Json.num) ++
    optField ("clientRtt") (p.client_rtt.map Json.num) ++
    optField ("serverRtt") (p.server_rtt.map Json.num))

/-- Deserialize `PingInfo`. -/
def PingInfo.deserialize : Json → Option PingInfo
  | Json.obj o => do
      let lc ← decOptNum (Json.lookup ("latencyCalculation") o)
      let clc ← decOptNum (Json.lookup ("clientLatencyCalculation") o)
      let crtt ← decOptNum (Json.lookup ("clientRtt") o)
      let srtt ← decOptNum (Json.lookup ("serverRtt") o)
      pure ⟨lc, clc, crtt, srtt⟩
  | _ => none

/-- Serialize `IgnoringInfo` (field names verbatim). -/
def IgnoringInfo.serialize (i : IgnoringInfo) : Json :=
  Json.obj (optField ("server") (i.server.map (fun n => Json.num (n : ℚ))) ++
    optField ("client") (i.client.map (fun n => Json.num (n : ℚ))))

/-- Deserialize `IgnoringInfo`. -/
def IgnoringInfo.deserialize : Json → Option IgnoringInfo
  | Json.obj o => do
      let server ← decOptNat (Json.lookup ("server") o)
      let client ← decOptNat (Json.lookup ("client") o)
      pure ⟨server, client⟩
  | _ => none

/-- Serialize `StateMessage` (camelCase keys). -/
def StateMessage.serialize (s : StateMessage) : Json :=
  Json.obj (optField ("playstate") (s.playstate.map PlayState.serialize) ++
    optField ("ping") (s.ping.map PingInfo.serialize) ++
    optField ("ignoringOnTheFly") (s.ignoring_on_the_fly.map IgnoringInfo.serialize))

/-- Deserialize `StateMessage`. -/
def StateMessage.deserialize : Json → Option StateMessage
  | Json.obj o => do
      let playstate ← decOptWith PlayState.deserialize (Json.lookup ("playstate") o)
      let ping ← decOptWith PingInfo.deserialize (Json.lookup ("ping") o)
      let ignoring ← decOptWith IgnoringInfo.deserialize (Json.lookup ("ignoringOnTheFly") o)
      pure ⟨playstate, ping, ignoring⟩
  | _ => none

/-- Serialize `UserInfo` (camelCase keys). -/
def UserInfo.serialize (u : UserInfo) : Json :=
  Json.obj (optField ("file") (u.file.map FileInfo.serialize) ++
    optField ("controller") (u.controller.map Json.bool) ++
    optField ("isReady") (u.is_ready.map Json.bool) ++
    optField ("features") (u.features.map ClientFeatures.serialize))

/-- Deserialize `UserInfo`. -/
def UserInfo.deserialize : Json → Option UserInfo
  | Json.obj o => do
      let file ← decOptWith FileInfo.deserialize (Json.lookup ("file") o)
      let controller ← decOptBool (Json.lookup ("controller") o)
      let is_ready ← decOptBool (Json.lookup ("isReady") o)
      let features ← decOptWith ClientFeatures.deserialize (Json.lookup ("features") o)
      pure ⟨file, controller, is_ready, features⟩
  | _ => none

/-- Serialize a `ListResponse` (nested string-keyed maps). -/
def ListResponse.serialize (l : ListResponse) : Json :=
  Json.obj (l.map (fun p =>
    (p.1, Json.obj (p.2.map (fun q => (q.1, UserInfo.serialize q.2))))))

/-- Deserialize the inner `HashMap<String, UserInfo>` of a `ListResponse`. -/
def decUserInfoMap : Json → Option (List (String × UserInfo))
  | Json.obj o => decEntries UserInfo.deserialize o
  | _ => none

/-- Deserialize a `ListResponse`. -/
def ListResponse.deserialize : Json → Option ListResponse
  | Json.obj o => decEntries decUserInfoMap o
  | _ => none

/-- Serialize `ChatMessage`. -/
def ChatMessage.serialize (c : ChatMessage) : Json :=
  Json.obj [(("username"), Json.str c.username), (("message"), Json.str c.message)]

/-- Deserialize `ChatMessage`. -/
def ChatMessage.deserialize : Json → Option ChatMessage
  | Json.obj o => do
      let username ← decReqStr (Json.lookup ("username") o)
      let message ← decReqStr (Json.lookup ("message") o)
      pure ⟨username, message⟩
  | _ => none

/-- Serialize `ErrorMessage`. -/
def ErrorMessage.serialize (e : ErrorMessage) : Json :=
  Json.obj [(("message"), Json.str e.message)]

/-- Deserialize `ErrorMessage`. -/
def ErrorMessage.deserialize : Json → Option ErrorMessage
  | Json.obj o => do
      let message ← decReqStr (Json.lookup ("message") o)
      pure ⟨message⟩
  | _ => none

/-- Serialize `TLSMessage` (`startTLS` key). -/
def TLSMessage.serialize (t : TLSMessage) : Json :=
  Json.obj (optField ("startTLS") (t.start_tls.map Json.str))

/-- Deserialize `TLSMessage`. -/
def TLSMessage.deserialize : Json → Option TLSMessage
  | Json.obj o => do
      let start_tls ← decOptStr (Json.lookup ("startTLS") o)
      pure ⟨start_tls⟩
  | _ => none

/-- Test used by `val.is_null()` in the `List` branch of deserialization. -/
def Json.isNull : Json → Bool
  | Json.null => true
  | _ => false

/-- `impl Serialize for ProtocolMessage`: a one-entry map keyed by the variant
tag; a `List` payload of `None` serializes as JSON `null`. -/
def ProtocolMessage.serialize : ProtocolMessage → Json
  | ProtocolMessage.Hello h => Json.obj [(("Hello"), h.serialize)]
  | ProtocolMessage.Set s => Json.obj [(("Set"), s.serialize)]
  | ProtocolMessage.State s => Json.obj [(("State"), s.serialize)]
  | ProtocolMessage.Chat c => Json.obj [(("Chat"), c.serialize)]
  | ProtocolMessage.Error e => Json.obj [(("Error"), e.serialize)]
  | ProtocolMessage.TLS t => Json.obj [(("TLS"), t.serialize)]
  | ProtocolMessage.List none => Json.obj [(("List"), Json.null)]
  | ProtocolMessage.List (some l) => Json.obj [(("List"), l.serialize)]

/-- `impl Deserialize for ProtocolMessage`: the value must be an object with
exactly one top-level key; unknown tags fail; `List: null` is an empty list
response. -/
def ProtocolMessage.deserialize : Json → Option ProtocolMessage
  | Json.obj [(k, v)] =>
      if k = ("Hello") then (HelloMessage.deserialize v).map ProtocolMessage.Hello
      else if k = ("Set") then (SetMessage.deserialize v).map ProtocolMessage.Set
      else if k = ("State") then (StateMessage.deserialize v).map ProtocolMessage.State
      else if k = ("Chat") then (ChatMessage.deserialize v).map ProtocolMessage.Chat
      else if k = ("Error") then (ErrorMessage.deserialize v).map ProtocolMessage.Error
      else if k = ("TLS") then (TLSMessage.deserialize v).map ProtocolMessage.TLS
      else if k = ("List") then
        if v.isNull then some (ProtocolMessage.List none)
        else (ListResponse.deserialize v).map (fun l => ProtocolMessage.List (some l))
      else none
  | _ => none

end Syncplay

namespace Syncplay

/-- Semantic collapse of an `Option<Value>` field: a field explicitly holding
bare JSON `null` deserializes to `None` (serde), so `Some(null)` and `None`
denote the same "unknown" value. -/
def canonVal : Option Json → Option Json
  | some Json.null => none
  | x => x

/-- Canonical form of a `UserUpdate`: its `features : Option<Value>` field
with `Some(null)` collapsed. -/
def UserUpdate.canon (u : UserUpdate) : UserUpdate :=
  { u with features := canonVal u.features }

/-- Canonical form of a `SetMessage`: `Option<Value>` features collapsed,
in the message itself and in every user update it carries. -/
def SetMessage.canon (s : SetMessage) : SetMessage :=
  { s with
    user := s.user.map (List.map (fun p => (p.1, p.2.canon)))
    features := canonVal s.features }

/-- Canonical form of a `ProtocolMessage`. -/
def ProtocolMessage.canon : ProtocolMessage → ProtocolMessage
  | ProtocolMessage.Set s => ProtocolMessage.Set s.canon
  | m => m

/-- A `UserEvent` is well formed when its flattened overflow map does not use
the reserved field names `joined` and `left` (a Rust value whose `extra` map
shadows a named field serializes ambiguously and does not survive decoding). -/
def UserEvent.wfB (e : UserEvent) : Bool :=
  e.extra.all (fun p => !(p.1 = ("joined") ∨ p.1 = ("left") : Bool))

/-- A `UserUpdate` is well formed when its event (if any) is. -/
def UserUpdate.wfB (u : UserUpdate) : Bool :=
  match u.event with
  | some e => e.wfB
  | none => true

/-- A `SetMessage` is well formed when every carried user update is. -/
def SetMessage.wfB (s : SetMessage) : Bool :=
  match s.user with
  | some us => us.all (fun p => p.2.wfB)
  | none => true

/-- A `ProtocolMessage` is well formed when its `Set` payload (if any) is. -/
def ProtocolMessage.wfB : ProtocolMessage → Bool
  | ProtocolMessage.Set s => s.wfB
  | _ => true

theorem Json.lookup_eq_none {k : String} {l : List (String × Json)}
    (h : ∀ p ∈ l, ¬(k = p.1)) : Json.lookup k l = none := by
  induction l with
  | nil => rfl
  | cons p rest ih =>
      simp only [Json.lookup, if_neg (h p (List.mem_cons_self p rest))]
      exact ih fun q hq => h q (List.mem_cons_of_mem p hq)

@[simp] theorem decOptNat_some_natCast (n : ℕ) :
    decOptNat (some (Json.num (n : ℚ))) = some (some n) := by
  simp [decOptNat, Rat.num_natCast, Rat.den_natCast, Int.toNat_natCast,
    Int.natCast_nonneg]

@[simp] theorem decOptVal_eq_canon (o : Option Json) :
    decOptVal o = some (canonVal o) := by
  cases o with
  | none => rfl
  | some j => cases j <;> rfl

@[simp] theorem decOptWith_none (dec : Json → Option α) :
    decOptWith dec none = some none := rfl

@[simp] theorem decOptNat_none : decOptNat none = some none := rfl

theorem RoomInfo_deserialize_serialize (r : RoomInfo) :
    RoomInfo.deserialize (RoomInfo.serialize r) = some r := by
  obtain ⟨name, password⟩ := r
  cases password <;>
    simp [RoomInfo.serialize, RoomInfo.deserialize, Json.lookup, optField,
      decReqStr, decOptStr]

@[simp] theorem decOptWith_RoomInfo (r : RoomInfo) :
    decOptWith RoomInfo.deserialize (some (RoomInfo.serialize r)) = some (some r) := by
  show (RoomInfo.deserialize (RoomInfo.serialize r)).map some = some (some r)
  rw [RoomInfo_deserialize_serialize]; rfl

theorem ClientFeatures_deserialize_serialize (c : ClientFeatures) :
    ClientFeatures.deserialize (ClientFeatures.serialize c) = some c := by
  obtain ⟨sp, ch, rs, mr, pr⟩ := c
  cases sp <;> cases ch <;> cases rs <;> cases mr <;> cases pr <;>
    simp [ClientFeatures.serialize, ClientFeatures.deserialize, Json.lookup,
      optField, decOptBool]

@[simp] theorem decOptWith_ClientFeatures (c : ClientFeatures) :
    decOptWith ClientFeatures.deserialize (some (ClientFeatures.serialize c)) =
      some (some c) := by
  show (ClientFeatures.deserialize (ClientFeatures.serialize c)).map some = some (some c)
  rw [ClientFeatures_deserialize_serialize]; rfl

theorem FileInfo_deserialize_serialize (f : FileInfo) :
    FileInfo.deserialize (FileInfo.serialize f) = some f := by
  obtain ⟨name, size, duration⟩ := f
  cases name <;> cases size <;> cases duration <;>
    simp [FileInfo.serialize, FileInfo.deserialize, Json.lookup, optField,
      decOptStr, decOptNum]

@[simp] theorem decOptWith_FileInfo (f : FileInfo) :
    decOptWith FileInfo.deserialize (some (FileInfo.serialize f)) = some (some f) := by
  show (FileInfo.deserialize (FileInfo.serialize f)).map some = some (some f)
  rw [FileInfo_deserialize_serialize]; rfl

theorem HelloMessage_deserialize_serialize (h : HelloMessage) :
    HelloMessage.deserialize (HelloMessage.serialize h) = some h := by
  obtain ⟨username, password, room, version, realversion, features, motd⟩ := h
  cases password <;> cases room <;> cases features <;> cases motd <;>
    simp [HelloMessage.serialize, HelloMessage.deserialize, Json.lookup,
      optField, decReqStr, decOptStr]

theorem ReadyState_deserialize_serialize (r : ReadyState) :
    ReadyState.deserialize (ReadyState.serialize r) = some r := by
  obtain ⟨username, is_ready, manually_initiated, set_by⟩ := r
  cases username <;> cases is_ready <;> cases manually_initiated <;> cases set_by <;>
    simp [ReadyState.serialize, ReadyState.deserialize, Json.lookup, optField,
      decOptStr, decOptBool]

@[simp] theorem decOptWith_ReadyState (r : ReadyState) :
    decOptWith ReadyState.deserialize (some (ReadyState.serialize r)) = some (some r) := by
  show (ReadyState.deserialize (ReadyState.serialize r)).map some = some (some r)
  rw [ReadyState_deserialize_serialize]; rfl

theorem PlaylistIndexUpdate_deserialize_serialize (p : PlaylistIndexUpdate) :
    PlaylistIndexUpdate.deserialize (PlaylistIndexUpdate.serialize p) = some p := by
  obtain ⟨user, index⟩ := p
  cases user <;> cases index <;>
    simp [PlaylistIndexUpdate.serialize, PlaylistIndexUpdate.deserialize,
      Json.lookup, optField, decOptStr]

@[simp] theorem decOptWith_PlaylistIndexUpdate (p : PlaylistIndexUpdate) :
    decOptWith PlaylistIndexUpdate.deserialize
      (some (PlaylistIndexUpdate.serialize p)) = some (some p) := by
  show (PlaylistIndexUpdate.deserialize (PlaylistIndexUpdate.serialize p)).map some =
    some (some p)
  rw [PlaylistIndexUpdate_deserialize_serialize]; rfl

theorem decStrs_map (l : List String) : decStrs (l.map Json.str) = some l := by
  induction l with
  | nil => rfl
  | cons s rest ih => simp [decStrs, ih]

@[simp] theorem decStrList_map (l : List String) :
    decStrList (Json.arr (l.map Json.str)) = some l := by
  simp [decStrList, decStrs_map]

theorem PlaylistChange_deserialize_serialize (p : PlaylistChange) :
    PlaylistChange.deserialize (PlaylistChange.serialize p) = some p := by
  obtain ⟨user, files⟩ := p
  cases user <;>
    simp [PlaylistChange.serialize, PlaylistChange.deserialize, Json.lookup,
      optField, decOptStr]

@[simp] theorem decOptWith_PlaylistChange (p : PlaylistChange) :
    decOptWith PlaylistChange.deserialize (some (PlaylistChange.serialize p)) =
      some (some p) := by
  show (PlaylistChange.deserialize (PlaylistChange.serialize p)).map some = some (some p)
  rw [PlaylistChange_deserialize_serialize]; rfl

end Syncplay

namespace Syncplay

@[simp] theorem lookup_optField_self (k : String) (v : Option Json) :
    Json.lookup k (optField k v) = v := by
  cases v <;> simp [optField, Json.lookup]

theorem UserEvent_deserialize_serialize (e : UserEvent) (h : e.wfB = true) :
    UserEvent.deserialize (UserEvent.serialize e) = some e := by
  obtain ⟨joined, left, extra⟩ := e
  have hall : ∀ p ∈ extra, (!(p.1 = ("joined") ∨ p.1 = ("left") : Bool)) = true := by
    simpa [UserEvent.wfB, List.all_eq_true] using h
  have hne : ∀ p ∈ extra, ¬(p.1 = ("joined")) ∧ ¬(p.1 = ("left")) := by
    intro p hp
    have := hall p hp
    simpa [not_or] using this
  have hj : Json.lookup ("joined") extra = none :=
    Json.lookup_eq_none (fun p hp hk => (hne p hp).1 hk.symm)
  have hl : Json.lookup ("left") extra = none :=
    Json.lookup_eq_none (fun p hp hk => (hne p hp).2 hk.symm)
  cases joined <;> cases left <;>
    (simp [UserEvent.serialize, UserEvent.deserialize, Json.lookup, optField,
      decOptBool, hj, hl]
     exact fun a b hab => hne (a, b) hab)

theorem UserUpdate_deserialize_serialize (u : UserUpdate) (h : u.wfB = true) :
    UserUpdate.deserialize (UserUpdate.serialize u) = some u.canon := by
  obtain ⟨room, file, event, controller, is_ready, features⟩ := u
  cases event with
  | none =>
      cases room <;> cases file <;> cases controller <;> cases is_ready <;>
        cases features <;>
        simp [UserUpdate.serialize, UserUpdate.deserialize, UserUpdate.canon,
          Json.lookup, optField, decOptBool]
  | some e =>
      have h' : e.wfB = true := by simpa [UserUpdate.wfB] using h
      have he : decOptWith UserEvent.deserialize (some (UserEvent.serialize e)) =
          some (some e) := by
        show (UserEvent.deserialize (UserEvent.serialize e)).map some = some (some e)
        rw [UserEvent_deserialize_serialize e h']; rfl
      cases room <;> cases file <;> cases controller <;> cases is_ready <;>
        cases features <;>
        simp [UserUpdate.serialize, UserUpdate.deserialize, UserUpdate.canon,
          Json.lookup, optField, decOptBool, he]

theorem decEntries_map_serialize {α β : Type} (dec : Json → Option β) (enc : α → Json)
    (c : α → β) (l : List (String × α)) (h : ∀ p ∈ l, dec (enc p.2) = some (c p.2)) :
    decEntries dec (l.map (fun p => (p.1, enc p.2))) =
      some (l.map (fun p => (p.1, c p.2))) := by
  induction l with
  | nil => rfl
  | cons p rest ih =>
      simp [decEntries, h p (List.mem_cons_self p rest),
        ih (fun q hq => h q (List.mem_cons_of_mem p hq))]

theorem decUserMap_serialize (us : List (String × UserUpdate))
    (h : ∀ p ∈ us, p.2.wfB = true) :
    decUserMap (Json.obj (us.map (fun p => (p.1, UserUpdate.serialize p.2)))) =
      some (us.map (fun p => (p.1, p.2.canon))) := by
  show decEntries UserUpdate.deserialize (us.map (fun p => (p.1, UserUpdate.serialize p.2))) =
    some (us.map (fun p => (p.1, p.2.canon)))
  exact decEntries_map_serialize UserUpdate.deserialize UserUpdate.serialize
    UserUpdate.canon us (fun p hp => UserUpdate_deserialize_serialize p.2 (h p hp))

theorem SetMessage_deserialize_serialize (s : SetMessage) (h : s.wfB = true) :
    SetMessage.deserialize (SetMessage.serialize s) = some s.canon := by
  obtain ⟨room, file, user, ready, playlist_index, playlist_change, features⟩ := s
  cases user with
  | none =>
      cases room <;> cases file <;> cases ready <;> cases playlist_index <;>
        cases playlist_change <;> cases features <;>
        simp [SetMessage.serialize, SetMessage.deserialize, SetMessage.canon,
          Json.lookup, optField]
  | some us =>
      have h' : ∀ p ∈ us, p.2.wfB = true := by
        simpa [SetMessage.wfB, List.all_eq_true] using h
      have hu : decOptWith decUserMap
          (some (Json.obj (us.map (fun p => (p.1, UserUpdate.serialize p.2))))) =
          some (some (us.map (fun p => (p.1, p.2.canon)))) := by
        show (decUserMap (Json.obj (us.map (fun p => (p.1, UserUpdate.serialize p.2))))).map
          some = some (some (us.map (fun p => (p.1, p.2.canon))))
        rw [decUserMap_serialize us h']; rfl
      cases room <;> cases file <;> cases ready <;> cases playlist_index <;>
        cases playlist_change <;> cases features <;>
        simp [SetMessage.serialize, SetMessage.deserialize, SetMessage.canon,
          Json.lookup, optField, hu]

theorem PlayState_deserialize_serialize (p : PlayState) :
    PlayState.deserialize (PlayState.serialize p) = some p := by
  obtain ⟨position, paused, do_seek, set_by⟩ := p
  cases do_seek <;> cases set_by <;>
    simp [PlayState.serialize, PlayState.deserialize, Json.lookup, optField,
      decReqNum, decReqBool, decOptBool, decOptStr]

@[simp] theorem decOptWith_PlayState (p : PlayState) :
    decOptWith PlayState.deserialize (some (PlayState.serialize p)) = some (some p) := by
  show (PlayState.deserialize (PlayState.serialize p)).map some = some (some p)
  rw [PlayState_deserialize_serialize]; rfl

theorem PingInfo_deserialize_serialize (p : PingInfo) :
    PingInfo.deserialize (PingInfo.serialize p) = some p := by
  obtain ⟨lc, clc, crtt, srtt⟩ := p
  cases lc <;> cases clc <;> cases crtt <;> cases srtt <;>
    simp [PingInfo.serialize, PingInfo.deserialize, Json.lookup, optField,
      decOptNum]

@[simp] theorem decOptWith_PingInfo (p : PingInfo) :
    decOptWith PingInfo.deserialize (some (PingInfo.serialize p)) = some (some p) := by
  show (PingInfo.deserialize (PingInfo.serialize p)).map some = some (some p)
  rw [PingInfo_deserialize_serialize]; rfl

theorem IgnoringInfo_deserialize_serialize (i : IgnoringInfo) :
    IgnoringInfo.deserialize (IgnoringInfo.serialize i) = some i := by
  obtain ⟨server, client⟩ := i
  cases server <;> cases client <;>
    simp [IgnoringInfo.serialize, IgnoringInfo.deserialize, Json.lookup, optField]

@[simp] theorem decOptWith_IgnoringInfo (i : IgnoringInfo) :
    decOptWith IgnoringInfo.deserialize (some (IgnoringInfo.serialize i)) =
      some (some i) := by
  show (IgnoringInfo.deserialize (IgnoringInfo.serialize i)).map some = some (some i)
  rw [IgnoringInfo_deserialize_serialize]; rfl

theorem StateMessage_deserialize_serialize (s : StateMessage) :
    StateMessage.deserialize (StateMessage.serialize s) = some s := by
  obtain ⟨playstate, ping, ignoring⟩ := s
  cases playstate <;> cases ping <;> cases ignoring <;>
    simp [StateMessage.serialize, StateMessage.deserialize, Json.lookup, optField]

theorem UserInfo_deserialize_serialize (u : UserInfo) :
    UserInfo.deserialize (UserInfo.serialize u) = some u := by
  obtain ⟨file, controller, is_ready, features⟩ := u
  cases file <;> cases controller <;> cases is_ready <;> cases features <;>
    simp [UserInfo.serialize, UserInfo.deserialize, Json.lookup, optField,
      decOptBool]

theorem decUserInfoMap_serialize (l : List (String × UserInfo)) :
    decUserInfoMap (Json.obj (l.map (fun q => (q.1, UserInfo.serialize q.2)))) =
      some l := by
  show decEntries UserInfo.deserialize (l.map (fun q => (q.1, UserInfo.serialize q.2))) =
    some l
  have := decEntries_map_serialize UserInfo.deserialize UserInfo.serialize id l
    (fun p _ => UserInfo_deserialize_serialize p.2)
  simpa using this

theorem ListResponse_deserialize_serialize (l : ListResponse) :
    ListResponse.deserialize (ListResponse.serialize l) = some l := by
  show decEntries decUserInfoMap
    (l.map (fun p => (p.1, Json.obj (p.2.map (fun q => (q.1, UserInfo.serialize q.2)))))) =
    some l
  have := decEntries_map_serialize decUserInfoMap
    (fun inner => Json.obj (List.map (fun q => (q.1, UserInfo.serialize q.2)) inner)) id l
    (fun p _ => decUserInfoMap_serialize p.2)
  simpa using this

theorem ChatMessage_deserialize_serialize (c : ChatMessage) :
    ChatMessage.deserialize (ChatMessage.serialize c) = some c := by
  simp [ChatMessage.serialize, ChatMessage.deserialize, Json.lookup, decReqStr]

theorem ErrorMessage_deserialize_serialize (e : ErrorMessage) :
    ErrorMessage.deserialize (ErrorMessage.serialize e) = some e := by
  simp [ErrorMessage.serialize, ErrorMessage.deserialize, Json.lookup, decReqStr]

theorem TLSMessage_deserialize_serialize (t : TLSMessage) :
    TLSMessage.deserialize (TLSMessage.serialize t) = some t := by
  obtain ⟨start_tls⟩ := t
  cases start_tls <;>
    simp [TLSMessage.serialize, TLSMessage.deserialize, Json.lookup, optField,
      decOptStr]

end Syncplay

namespace Syncplay

/-- C1: round-trip of the protocol grammar through serde encode/decode.
The claim as frozen ("for every `ProtocolMessage` value,
`decode(encode(m)) == m`") fails — see the counterexample, where a
`UserEvent.extra` overflow map shadowing the reserved flattened field name
`joined` makes the encoded line undecodable.  The amended claim proved here:
for every well-formed message (no `UserEvent.extra` key equal to `joined` or
`left`), decoding the encoded line succeeds and yields the original message
up to the semantic collapse `canon` of `Option<Value>` fields holding a bare
JSON `null` (serde decodes an explicit `null` for such a field to `None`,
which denotes the same "unknown" value).  All other null-bearing optional
fields (`isReady`, `index`, …) encode as absent and round-trip exactly. -/
theorem c1_decode_encode_roundtrip (m : ProtocolMessage) (h : m.wfB = true) :
    ProtocolMessage.deserialize (ProtocolMessage.serialize m) = some m.canon := by
  cases m with
  | Hello x =>
      simp [ProtocolMessage.serialize, ProtocolMessage.deserialize,
        ProtocolMessage.canon, HelloMessage_deserialize_serialize]
  | Set s =>
      have h' : s.wfB = true := by simpa [ProtocolMessage.wfB] using h
      simp [ProtocolMessage.serialize, ProtocolMessage.deserialize,
        ProtocolMessage.canon, SetMessage_deserialize_serialize s h']
  | State s =>
      simp [ProtocolMessage.serialize, ProtocolMessage.deserialize,
        ProtocolMessage.canon, StateMessage_deserialize_serialize]
  | Chat c =>
      simp [ProtocolMessage.serialize, ProtocolMessage.deserialize,
        ProtocolMessage.canon, ChatMessage_deserialize_serialize]
  | Error e =>
      simp [ProtocolMessage.serialize, ProtocolMessage.deserialize,
        ProtocolMessage.canon, ErrorMessage_deserialize_serialize]
  | TLS t =>
      simp [ProtocolMessage.serialize, ProtocolMessage.deserialize,
        ProtocolMessage.canon, TLSMessage_deserialize_serialize]
  | List ol =>
      cases ol with
      | none =>
          simp [ProtocolMessage.serialize, ProtocolMessage.deserialize,
            ProtocolMessage.canon, Json.isNull]
      | some l =>
          have hl : ListResponse.deserialize
              (Json.obj (l.map (fun p => (p.1,
                Json.obj (p.2.map (fun q => (q.1, UserInfo.serialize q.2))))))) =
              some l :=
            ListResponse_deserialize_serialize l
          simp [ProtocolMessage.serialize, ProtocolMessage.deserialize,
            ProtocolMessage.canon, ListResponse.serialize, Json.isNull, hl]

/-- A `Set.user` update whose event overflow map uses the reserved flattened
key `joined` with a non-boolean value. -/
def msgCollision : ProtocolMessage :=
  ProtocolMessage.Set
    ⟨none, none,
      some [(("u"), ⟨none, none, some ⟨none, none, [(("joined"), Json.str ("x"))]⟩,
        none, none, none⟩)],
      none, none, none, none⟩

/-- C1 (counterexample): for `msgCollision` the encoded line does not decode
back to the message at all — deserialization fails, because the overflow
entry `joined: "x"` is serialized into the same object as the named `joined`
field and is then consumed by the `Option<bool>` field decoder, which
rejects a string.  Hence `decode(encode(m)) == m` does not hold for every
`ProtocolMessage` in the grammar. -/
theorem c1_roundtrip_counterexample :
    ProtocolMessage.deserialize (ProtocolMessage.serialize msgCollision) = none := rfl

/-- The Hello message of the serialization test in `protocol.rs`. -/
def helloTest : ProtocolMessage :=
  ProtocolMessage.Hello
    ⟨("testuser"), none, some ⟨("testroom"), none⟩, ("1.2.255"), ("1.7.0"),
      some ⟨some true, some true, some true, some false, some false⟩, none⟩

/-- C1 (witness): the round-trip theorem applied to the concrete Hello
message of the repository's serialization test. -/
theorem c1_decode_encode_roundtrip_witness :
    helloTest.wfB = true ∧
      ProtocolMessage.deserialize (ProtocolMessage.serialize helloTest) =
        some helloTest.canon :=
  ⟨rfl, c1_decode_encode_roundtrip helloTest rfl⟩

/-- The wire line `{"Set":{"ready":{"username":"pc","isReady":null,
"manuallyInitiated":false}}}` of the repository's null-ready test. -/
def readyNullJson : Json :=
  Json.obj [(("Set"), Json.obj [(("ready"), Json.obj
    [(("username"), Json.str ("pc")), (("isReady"), Json.null),
      (("manuallyInitiated"), Json.bool false)])])]

/-- The wire line `{"Set":{"playlistIndex":{"user":"AS1","index":null}}}` of
the repository's null-index test. -/
def indexNullJson : Json :=
  Json.obj [(("Set"), Json.obj [(("playlistIndex"), Json.obj
    [(("user"), Json.str ("AS1")), (("index"), Json.null)])])]

/-- C7: a `Set` message with `ready.isReady = null` decodes successfully to
the "unknown" ready value `none`, which is distinct from `some false`; and a
`Set` message with `playlistIndex.index = null` decodes successfully to the
"no index" value `none`. -/
theorem c7_null_ready_and_null_index_decode :
    ProtocolMessage.deserialize readyNullJson =
      some (ProtocolMessage.Set ⟨none, none, none,
        some ⟨some ("pc"), none, some false, none⟩, none, none, none⟩) ∧
    (none : Option Bool) ≠ some false ∧
    ProtocolMessage.deserialize indexNullJson =
      some (ProtocolMessage.Set ⟨none, none, none, none,
        some ⟨some ("AS1"), none⟩, none, none⟩) := by
  refine ⟨rfl, by decide, rfl⟩

end Syncplay

namespace Syncplay

/-- The `PlaylistItem` struct of `playlist.rs`. -/
structure PlaylistItem where
  filename : String
  duration : Option ℚ
  deriving DecidableEq

/-- `PlaylistItem::new`: an item with no duration. -/
def PlaylistItem.new (filename : String) : PlaylistItem := ⟨filename, none⟩

/-- The `Playlist` state of `playlist.rs` (the two `RwLock` cells). -/
structure Playlist where
  items : List PlaylistItem
  current_index : Option ℕ
  deriving DecidableEq

/-- `Playlist::new`: empty items, no current index. -/
def Playlist.new : Playlist := ⟨[], none⟩

/-- `Playlist::set_items`: replace the whole playlist; index becomes `Some(0)`
when the new playlist is nonempty, else `None`. -/
def Playlist.set_items (_ : Playlist) (items : List String) : Playlist :=
  let playlist_items := items.map PlaylistItem.new
  { items := playlist_items
    current_index := if playlist_items.isEmpty then none else some 0 }

/-- `Playlist::add_item`: push at the end; the first item becomes current. -/
def Playlist.add_item (p : Playlist) (filename : String) : Playlist :=
  let items := p.items ++ [PlaylistItem.new filename]
  { items := items
    current_index := if items.length = 1 then some 0 else p.current_index }

/-- `Playlist::remove_item`: out-of-bounds returns `false` unchanged;
otherwise remove and fix up the current index as the source does. -/
def Playlist.remove_item (p : Playlist) (index : ℕ) : Bool × Playlist :=
  if index < p.items.length then
    let items := p.items.eraseIdx index
    let current :=
      match p.current_index with
      | some current_idx =>
          if current_idx = index then
            if items.isEmpty then none
            else if items.length ≤ current_idx then some (items.length - 1)
            else some current_idx
          else if index < current_idx then some (current_idx - 1)
          else some current_idx
      | none => none
    (true, { items := items, current_index := current })
  else (false, p)

/-- `Playlist::set_current_index`: bounds-checked index assignment. -/
def Playlist.set_current_index (p : Playlist) (index : ℕ) : Bool × Playlist :=
  if index < p.items.length then (true, { p with current_index := some index })
  else (false, p)

/-- `Playlist::next`: wrap to the start past the end; `None` index starts
at 0; returns the item now current. -/
def Playlist.next (p : Playlist) : Option PlaylistItem × Playlist :=
  if p.items.isEmpty then (none, p)
  else
    let next_index :=
      match p.current_index with
      | some idx => if idx + 1 < p.items.length then idx + 1 else 0
      | none => 0
    (p.items.get? next_index, { p with current_index := some next_index })

/-- `Playlist::previous`: wrap to the end below the start; `None` index
starts at the end. -/
def Playlist.previous (p : Playlist) : Option PlaylistItem × Playlist :=
  if p.items.isEmpty then (none, p)
  else
    let prev_index :=
      match p.current_index with
      | some 0 => p.items.length - 1
      | some idx => idx - 1
      | none => p.items.length - 1
    (p.items.get? prev_index, { p with current_index := some prev_index })

/-- `Playlist::clear`. -/
def Playlist.clear (_ : Playlist) : Playlist := ⟨[], none⟩

/-- `Playlist::reorder`: bounds-checked move of one item with current-index
fix-up; moving an item onto itself is a successful no-op. -/
def Playlist.reorder (p : Playlist) (from_index to_index : ℕ) : Bool × Playlist :=
  if h : from_index < p.items.length ∧ to_index < p.items.length then
    if from_index = to_index then (true, p)
    else
      let item := p.items.get ⟨from_index, h.1⟩
      let items := (p.items.eraseIdx from_index).insertIdx to_index item
      let current :=
        match p.current_index with
        | some current_idx =>
            if current_idx = from_index then some to_index
            else if from_index < current_idx ∧ current_idx ≤ to_index then
              some (current_idx - 1)
            else if current_idx < from_index ∧ to_index ≤ current_idx then
              some (current_idx + 1)
            else some current_idx
        | none => none
      (true, { items := items, current_index := current })
  else (false, p)

/-- One playlist operation, as named by the specification. -/
inductive PlaylistOp where
  | add_item (filename : String)
  | remove_item (index : ℕ)
  | set_current_index (index : ℕ)
  | reorder (from_index to_index : ℕ)
  | next
  | previous
  | set_items (items : List String)
  | clear

/-- Apply one operation to the playlist state (return values discarded). -/
def Playlist.apply (p : Playlist) : PlaylistOp → Playlist
  | PlaylistOp.add_item f => p.add_item f
  | PlaylistOp.remove_item i => (p.remove_item i).2
  | PlaylistOp.set_current_index i => (p.set_current_index i).2
  | PlaylistOp.reorder a b => (p.reorder a b).2
  | PlaylistOp.next => p.next.2
  | PlaylistOp.previous => p.previous.2
  | PlaylistOp.set_items fs => p.set_items fs
  | PlaylistOp.clear => p.clear

/-- The playlist invariant of the specification. -/
def Playlist.invariant (p : Playlist) : Prop :=
  (p.current_index = none ↔ p.items = []) ∧
    ∀ i, p.current_index = some i → i < p.items.length

end Syncplay

namespace Syncplay


theorem Playlist.invariant_of_some (items : List PlaylistItem) (i : ℕ)
    (h : i < items.length) : Playlist.invariant ⟨items, some i⟩ := by
  refine ⟨⟨fun hx => ?_, fun hx => ?_⟩, fun j hj => ?_⟩
  · exact absurd hx (by simp)
  · subst hx
    simp at h
  · have : i = j := by injection hj
    subst this
    exact h

theorem Playlist.invariant_none_nil : Playlist.invariant ⟨[], none⟩ := by
  refine ⟨⟨fun _ => rfl, fun _ => rfl⟩, fun j hj => ?_⟩
  simp at hj

theorem Playlist.invariant_new : Playlist.new.invariant :=
  Playlist.invariant_none_nil

theorem Playlist.invariant_add_item (p : Playlist) (f : String) (h : p.invariant) :
    (p.add_item f).invariant := by
  obtain ⟨items, ci⟩ := p
  obtain ⟨h1, h2⟩ := h
  simp only [Playlist.add_item]
  by_cases hone : (items ++ [PlaylistItem.new f]).length = 1
  · rw [if_pos hone]
    exact Playlist.invariant_of_some _ 0 (by omega)
  · rw [if_neg hone]
    simp only [List.length_append, List.length_singleton] at hone
    have hlen : items.length ≠ 0 := by omega
    cases ci with
    | none =>
        exact absurd (h1.mp rfl) (by simpa [← List.length_eq_zero] using hlen)
    | some i =>
        have hb : i < items.length := h2 i rfl
        exact Playlist.invariant_of_some _ i (by simp; omega)

theorem Playlist.invariant_remove_item (p : Playlist) (index : ℕ) (h : p.invariant) :
    ((p.remove_item index).2).invariant := by
  obtain ⟨items, ci⟩ := p
  obtain ⟨h1, h2⟩ := h
  simp only [Playlist.remove_item]
  by_cases hidx : index < items.length
  · rw [if_pos hidx]
    have herase : (items.eraseIdx index).length = items.length - 1 :=
      List.length_eraseIdx_of_lt hidx
    cases ci with
    | none =>
        have : items = [] := h1.mp rfl
        subst this
        simp at hidx
    | some current_idx =>
        have hb : current_idx < items.length := h2 current_idx rfl
        simp only
        by_cases hci : current_idx = index
        · rw [if_pos hci]
          by_cases hemp : (items.eraseIdx index).isEmpty
          · rw [if_pos hemp]
            have : items.eraseIdx index = [] := List.isEmpty_iff.mp hemp
            rw [this]
            exact Playlist.invariant_none_nil
          · rw [if_neg hemp]
            have hlen : (items.eraseIdx index).length ≠ 0 := by
              simpa [List.isEmpty_iff, ← List.length_eq_zero] using hemp
            by_cases hge : (items.eraseIdx index).length ≤ current_idx
            · rw [if_pos hge]
              exact Playlist.invariant_of_some _ _ (by omega)
            · rw [if_neg hge]
              exact Playlist.invariant_of_some _ _ (by omega)
        · rw [if_neg hci]
          by_cases hlt : index < current_idx
          · rw [if_pos hlt]
            exact Playlist.invariant_of_some _ _ (by omega)
          · rw [if_neg hlt]
            have : current_idx < index := by omega
            exact Playlist.invariant_of_some _ _ (by omega)
  · rw [if_neg hidx]
    exact ⟨h1, h2⟩

theorem Playlist.invariant_set_current_index (p : Playlist) (index : ℕ)
    (h : p.invariant) : ((p.set_current_index index).2).invariant := by
  obtain ⟨items, ci⟩ := p
  obtain ⟨h1, h2⟩ := h
  simp only [Playlist.set_current_index]
  by_cases hidx : index < items.length
  · rw [if_pos hidx]
    exact Playlist.invariant_of_some _ _ hidx
  · rw [if_neg hidx]
    exact ⟨h1, h2⟩

theorem Playlist.invariant_next (p : Playlist) (h : p.invariant) :
    (p.next.2).invariant := by
  obtain ⟨items, ci⟩ := p
  obtain ⟨h1, h2⟩ := h
  simp only [Playlist.next]
  by_cases hemp : items.isEmpty
  · rw [if_pos hemp]
    exact ⟨h1, h2⟩
  · rw [if_neg hemp]
    have hlen : items.length ≠ 0 := by
      simpa [List.isEmpty_iff, ← List.length_eq_zero] using hemp
    cases ci with
    | none => exact Playlist.invariant_of_some _ 0 (by omega)
    | some idx =>
        simp only
        by_cases hstep : idx + 1 < items.length
        · rw [if_pos hstep]
          exact Playlist.invariant_of_some _ _ hstep
        · rw [if_neg hstep]
          exact Playlist.invariant_of_some _ 0 (by omega)

theorem Playlist.invariant_previous (p : Playlist) (h : p.invariant) :
    (p.previous.2).invariant := by
  obtain ⟨items, ci⟩ := p
  obtain ⟨h1, h2⟩ := h
  simp only [Playlist.previous]
  by_cases hemp : items.isEmpty
  · rw [if_pos hemp]
    exact ⟨h1, h2⟩
  · rw [if_neg hemp]
    have hlen : items.length ≠ 0 := by
      simpa [List.isEmpty_iff, ← List.length_eq_zero] using hemp
    cases ci with
    | none =>
        show Playlist.invariant ⟨items, some (items.length - 1)⟩
        exact Playlist.invariant_of_some _ _ (by omega)
    | some idx =>
        cases idx with
        | zero =>
            show Playlist.invariant ⟨items, some (items.length - 1)⟩
            exact Playlist.invariant_of_some _ _ (by omega)
        | succ n =>
            have hb : n + 1 < items.length := h2 (n + 1) rfl
            show Playlist.invariant ⟨items, some (n + 1 - 1)⟩
            exact Playlist.invariant_of_some _ _ (by omega)

theorem Playlist.invariant_set_items (p : Playlist) (fs : List String)
    (_h : p.invariant) : (p.set_items fs).invariant := by
  simp only [Playlist.set_items]
  by_cases hemp : (fs.map PlaylistItem.new).isEmpty
  · rw [if_pos hemp]
    have : fs.map PlaylistItem.new = [] := List.isEmpty_iff.mp hemp
    rw [this]
    exact Playlist.invariant_none_nil
  · rw [if_neg hemp]
    have hlen : (fs.map PlaylistItem.new).length ≠ 0 := by
      simpa [List.isEmpty_iff, ← List.length_eq_zero] using hemp
    exact Playlist.invariant_of_some _ 0 (by omega)

theorem Playlist.invariant_clear (p : Playlist) : (p.clear).invariant :=
  Playlist.invariant_none_nil

theorem Playlist.invariant_reorder (p : Playlist) (a b : ℕ) (h : p.invariant) :
    ((p.reorder a b).2).invariant := by
  obtain ⟨items, ci⟩ := p
  obtain ⟨h1, h2⟩ := h
  simp only [Playlist.reorder]
  by_cases hab : a < items.length ∧ b < items.length
  · rw [dif_pos hab]
    by_cases heq : a = b
    · rw [if_pos heq]
      exact ⟨h1, h2⟩
    · rw [if_neg heq]
      have herase : (items.eraseIdx a).length = items.length - 1 :=
        List.length_eraseIdx_of_lt hab.1
      have hins : ((items.eraseIdx a).insertIdx b (items.get ⟨a, hab.1⟩)).length =
          items.length := by
        rw [List.length_insertIdx b _ (by omega), herase]
        omega
      cases ci with
      | none =>
          have : items = [] := h1.mp rfl
          subst this
          simp at hab
      | some current_idx =>
          have hb : current_idx < items.length := h2 current_idx rfl
          simp only
          by_cases hc1 : current_idx = a
          · rw [if_pos hc1]
            exact Playlist.invariant_of_some _ _ (by omega)
          · rw [if_neg hc1]
            by_cases hc2 : a < current_idx ∧ current_idx ≤ b
            · rw [if_pos hc2]
              exact Playlist.invariant_of_some _ _ (by omega)
            · rw [if_neg hc2]
              by_cases hc3 : current_idx < a ∧ b ≤ current_idx
              · rw [if_pos hc3]
                exact Playlist.invariant_of_some _ _ (by omega)
              · rw [if_neg hc3]
                exact Playlist.invariant_of_some _ _ (by omega)
  · rw [dif_neg hab]
    exact ⟨h1, h2⟩

theorem Playlist.invariant_apply (p : Playlist) (op : PlaylistOp)
    (h : p.invariant) : (p.apply op).invariant := by
  cases op with
  | add_item f => exact p.invariant_add_item f h
  | remove_item i => exact p.invariant_remove_item i h
  | set_current_index i => exact p.invariant_set_current_index i h
  | reorder a b => exact p.invariant_reorder a b h
  | next => exact p.invariant_next h
  | previous => exact p.invariant_previous h
  | set_items fs => exact p.invariant_set_items fs h
  | clear => exact p.invariant_clear

theorem Playlist.invariant_foldl (ops : List PlaylistOp) :
    ∀ p : Playlist, p.invariant → (ops.foldl Playlist.apply p).invariant := by
  induction ops with
  | nil => exact fun p h => h
  | cons op rest ih => exact fun p h => ih (p.apply op) (p.invariant_apply op h)

end Syncplay

namespace Syncplay

/-- C2: for every sequence of playlist operations (`add_item`, `remove_item`,
`set_current_index`, `reorder`, `next`, `previous`, `set_items`, `clear`)
starting from the empty playlist, after each operation `current_index` is
`none` iff `items` is empty and otherwise lies in `[0, items.length)`.
(Stating the invariant for every prefix of the sequence: every prefix is
itself a sequence, so this quantification covers "after each operation".) -/
theorem c2_playlist_invariant_all_sequences (ops : List PlaylistOp) :
    (ops.foldl Playlist.apply Playlist.new).invariant :=
  Playlist.invariant_foldl ops Playlist.new Playlist.invariant_new

/-- C10: playlist mutators fail atomically on bad indices — out-of-bounds
`remove_item`, `set_current_index` and `reorder` return `false` with the
state unchanged, and in-bounds `reorder i i` returns `true` and changes
nothing. -/
theorem c10_playlist_mutators_fail_atomically (p : Playlist) (i j : ℕ) :
    (p.items.length ≤ i → p.remove_item i = (false, p)) ∧
    (p.items.length ≤ i → p.set_current_index i = (false, p)) ∧
    (p.items.length ≤ i ∨ p.items.length ≤ j → p.reorder i j = (false, p)) ∧
    (i < p.items.length → p.reorder i i = (true, p)) := by
  refine ⟨fun hi => ?_, fun hi => ?_, fun hij => ?_, fun hi => ?_⟩
  · simp [Playlist.remove_item]
    omega
  · simp [Playlist.set_current_index]
    omega
  · have : ¬(i < p.items.length ∧ j < p.items.length) := by omega
    simp [Playlist.reorder, this]
  · have hij : i < p.items.length ∧ i < p.items.length := ⟨hi, hi⟩
    simp [Playlist.reorder, hij]

/-- C10 (witness): the atomicity theorem at the one-item playlist with
current index 0, at indices 1 (out of bounds) and 0 (in bounds). -/
theorem c10_playlist_mutators_witness :
    Playlist.remove_item ⟨[⟨("a"), none⟩], some 0⟩ 1 =
      (false, ⟨[⟨("a"), none⟩], some 0⟩) ∧
    Playlist.set_current_index ⟨[⟨("a"), none⟩], some 0⟩ 1 =
      (false, ⟨[⟨("a"), none⟩], some 0⟩) ∧
    Playlist.reorder ⟨[⟨("a"), none⟩], some 0⟩ 1 0 =
      (false, ⟨[⟨("a"), none⟩], some 0⟩) ∧
    Playlist.reorder ⟨[⟨("a"), none⟩], some 0⟩ 0 0 =
      (true, ⟨[⟨("a"), none⟩], some 0⟩) := by
  have h1 := c10_playlist_mutators_fail_atomically ⟨[⟨("a"), none⟩], some 0⟩ 1 0
  have h2 := c10_playlist_mutators_fail_atomically ⟨[⟨("a"), none⟩], some 0⟩ 0 0
  exact ⟨h1.1 (by decide), h1.2.1 (by decide), h1.2.2.1 (Or.inl (by decide)),
    h2.2.2.2 (by decide)⟩

end Syncplay

namespace Syncplay

/-- `SEEK_THRESHOLD` of `local_state.rs` (1.0 s). -/
def SEEK_THRESHOLD : ℚ := 1

/-- The `LocalPlaybackState` struct of `local_state.rs`. -/
structure LocalPlaybackState where
  position : ℚ
  paused : Bool
  initialized : Bool
  deriving DecidableEq

/-- `LocalPlaybackState::new` (also `Default`): position 0.0, paused,
already marked initialized. -/
def LocalPlaybackState.new : LocalPlaybackState := ⟨0, true, true⟩

/-- `LocalPlaybackState::update_from_player`: returns
`(pause_change, seeked)` and the updated state. -/
def LocalPlaybackState.update_from_player (s : LocalPlaybackState) (position : ℚ)
    (paused : Bool) (global_position : ℚ) (global_paused : Bool) :
    (Bool × Bool) × LocalPlaybackState :=
  let pause_change := s.initialized && (s.paused != paused) && (global_paused != paused)
  let player_diff := if s.initialized then |s.position - position| else 0
  let global_diff := |global_position - position|
  let seeked := s.initialized && decide (player_diff > SEEK_THRESHOLD) &&
    decide (global_diff > SEEK_THRESHOLD)
  ((pause_change, seeked), ⟨position, paused, true⟩)

/-- `LocalPlaybackState::current`: the position/pause pair once initialized. -/
def LocalPlaybackState.current (s : LocalPlaybackState) : Option (ℚ × Bool) :=
  if s.initialized then some (s.position, s.paused) else none

/-- `LocalPlaybackState::compute_seeked`. -/
def LocalPlaybackState.compute_seeked (s : LocalPlaybackState)
    (position global_position : ℚ) : Bool :=
  if !s.initialized then false
  else
    decide (|s.position - position| > SEEK_THRESHOLD) &&
      decide (|global_position - position| > SEEK_THRESHOLD)

/-- C8: for every prior local playback state and every call
`update_from_player(pos, paused, global_position, global_paused)`, the
returned pair satisfies `pause_change = initialized ∧ paused ≠ previous ∧
global_paused ≠ paused` and `seeked = initialized ∧ |prev_pos − pos| > 1 ∧
|global_pos − pos| > 1`. -/
theorem c8_update_from_player_flags (s : LocalPlaybackState) (pos : ℚ)
    (paused : Bool) (global_position : ℚ) (global_paused : Bool) :
    (s.update_from_player pos paused global_position global_paused).1 =
      (s.initialized && (s.paused != paused) && (global_paused != paused),
        s.initialized && decide (|s.position - pos| > 1) &&
          decide (|global_position - pos| > 1)) := by
  obtain ⟨p0, pa0, init⟩ := s
  cases init <;>
    simp [LocalPlaybackState.update_from_player, SEEK_THRESHOLD]

/-- C9: immediately after `LocalPlaybackState::new()` the state is already
initialized with position 0.0 and paused, `current()` returns
`Some((0.0, true))`, and the very first `update_from_player` call can
already report both `pause_change` and `seeked` against this synthetic
initial state (shown at the player snapshot position 5, playing, with
global position 10, paused). -/
theorem c9_initial_state_synthetic :
    LocalPlaybackState.new.initialized = true ∧
    LocalPlaybackState.new.position = 0 ∧
    LocalPlaybackState.new.paused = true ∧
    LocalPlaybackState.new.current = some (0, true) ∧
    (LocalPlaybackState.new.update_from_player 5 false 10 true).1 = (true, true) := by
  refine ⟨rfl, rfl, rfl, rfl, ?_⟩
  have h1 : |(0 : ℚ) - 5| = 5 := by norm_num
  have h2 : |(10 : ℚ) - 5| = 5 := by norm_num
  simp [LocalPlaybackState.update_from_player, LocalPlaybackState.new,
    SEEK_THRESHOLD, h1, h2]

/-- `FASTFORWARD_EXTRA_TIME` of `sync.rs` (0.25 s). -/
def FASTFORWARD_EXTRA_TIME : ℚ := 1 / 4

/-- `FASTFORWARD_RESET_THRESHOLD` of `sync.rs` (3.0 s). -/
def FASTFORWARD_RESET_THRESHOLD : ℚ := 3

/-- `FASTFORWARD_BEHIND_THRESHOLD` of `sync.rs` (1.75 s). -/
def FASTFORWARD_BEHIND_THRESHOLD : ℚ := 7 / 4

/-- The `SyncAction` enum of `sync.rs`. -/
inductive SyncAction where
  | None : SyncAction
  | Seek : ℚ → SyncAction
  | SetPaused : Bool → SyncAction
  | Slowdown : SyncAction
  | ResetSpeed : SyncAction
  deriving DecidableEq

/-- The `SyncInputs` struct of `sync.rs`. -/
structure SyncInputs where
  local_position : ℚ
  local_paused : Bool
  global_position : ℚ
  global_paused : Bool
  message_age : ℚ
  do_seek : Bool
  allow_fastforward : Bool
  deriving DecidableEq

/-- The `SyncEngine` struct of `sync.rs`; the monotonic `Instant` of
`behind_first_detected` is modelled as a rational timestamp. -/
structure SyncEngine where
  slowdown_active : Bool
  behind_first_detected : Option ℚ
  seek_threshold_rewind : ℚ
  seek_threshold_fastforward : ℚ
  slowdown_threshold : ℚ
  slowdown_reset_threshold : ℚ
  slowdown_rate : ℚ
  slow_on_desync : Bool
  rewind_on_desync : Bool
  fastforward_on_desync : Bool
  deriving DecidableEq

/-- `SyncEngine::new` with the default thresholds of `sync.rs`. -/
def SyncEngine.new : SyncEngine :=
  ⟨false, none, 4, 5, 3 / 2, 1 / 10, 19 / 20, true, true, true⟩

/-- `SyncEngine::calculate_sync_actions`, with the current monotonic time
passed explicitly (the source reads `Instant::now()` inside the
fast-forward branch; `checked_duration_since` saturates at zero). -/
def SyncEngine.calculate_sync_actions (e : SyncEngine) (now : ℚ)
    (inputs : SyncInputs) : List SyncAction × SyncEngine :=
  let adjusted_global_position :=
    if !inputs.global_paused then inputs.global_position + inputs.message_age
    else inputs.global_position
  let diff := inputs.local_position - adjusted_global_position
  let actions0 : List SyncAction :=
    if inputs.local_paused != inputs.global_paused then
      [SyncAction.SetPaused inputs.global_paused]
    else []
  let step1 : List SyncAction × SyncEngine :=
    if inputs.do_seek then
      (actions0 ++ [SyncAction.Seek adjusted_global_position] ++
        (if e.slowdown_active then [SyncAction.ResetSpeed] else []),
        { e with slowdown_active := false })
    else (actions0, e)
  let actions1 := step1.1
  let e1 := step1.2
  let step2 : List SyncAction × SyncEngine :=
    if !inputs.do_seek && (inputs.local_paused == inputs.global_paused) then
      if e1.rewind_on_desync && decide (diff > e1.seek_threshold_rewind) then
        (actions1 ++ [SyncAction.Seek adjusted_global_position],
          { e1 with slowdown_active := false, behind_first_detected := none })
      else if inputs.allow_fastforward && e1.fastforward_on_desync then
        if decide (diff < -FASTFORWARD_BEHIND_THRESHOLD) then
          match e1.behind_first_detected with
          | Option.none => (actions1, { e1 with behind_first_detected := some now })
          | some start =>
              let duration_behind := if start ≤ now then now - start else 0
              if decide (duration_behind >
                    e1.seek_threshold_fastforward - FASTFORWARD_BEHIND_THRESHOLD) &&
                  decide (diff < -e1.seek_threshold_fastforward) then
                (actions1 ++
                    [SyncAction.Seek (adjusted_global_position + FASTFORWARD_EXTRA_TIME)],
                  { e1 with
                    slowdown_active := false
                    behind_first_detected := some (now + FASTFORWARD_RESET_THRESHOLD) })
              else (actions1, e1)
        else (actions1, { e1 with behind_first_detected := none })
      else if e1.slow_on_desync && !inputs.global_paused &&
          decide (|diff| > e1.slowdown_threshold) then
        if !e1.slowdown_active then
          (actions1 ++ [SyncAction.Slowdown], { e1 with slowdown_active := true })
        else (actions1, e1)
      else if e1.slowdown_active && decide (|diff| < e1.slowdown_reset_threshold) then
        (actions1 ++ [SyncAction.ResetSpeed], { e1 with slowdown_active := false })
      else if e1.slowdown_active && !e1.slow_on_desync then
        (actions1 ++ [SyncAction.ResetSpeed], { e1 with slowdown_active := false })
      else (actions1, e1)
    else (actions1, e1)
  let actions2 := step2.1
  let e2 := step2.2
  (if actions2.isEmpty then [SyncAction.None] else actions2, e2)

end Syncplay

namespace Syncplay

/-- C5: the do-seek decision of `calculate_sync_actions`.  The claim as
frozen says no action other than a preceding `SetPaused` accompanies the
`Seek` — this fails when the internal slowdown flag is set (see the
counterexample): the source then also appends `ResetSpeed`.  Amended claim
proved here: with the do-seek flag set, the engine emits `SetPaused` when
the pause states differ, then `Seek(adjusted_global)` where
`adjusted_global = global_position` if globally paused and
`global_position + message_age` otherwise, then `ResetSpeed` exactly when
the slowdown flag was set; no other action appears, and the slowdown flag
is cleared. -/
theorem c5_do_seek_decision (e : SyncEngine) (now : ℚ) (inputs : SyncInputs)
    (h : inputs.do_seek = true) :
    (e.calculate_sync_actions now inputs).1 =
      (if inputs.local_paused != inputs.global_paused then
        [SyncAction.SetPaused inputs.global_paused]
      else []) ++
      [SyncAction.Seek (if inputs.global_paused then inputs.global_position
        else inputs.global_position + inputs.message_age)] ++
      (if e.slowdown_active then [SyncAction.ResetSpeed] else []) ∧
    (e.calculate_sync_actions now inputs).2.slowdown_active = false := by
  obtain ⟨lp, lpa, gp, gpa, ma, ds, ff⟩ := inputs
  simp only at h
  subst h
  cases hsa : e.slowdown_active <;> cases lpa <;> cases gpa <;>
    simp [SyncEngine.calculate_sync_actions, hsa]

/-- The do-seek input of the counterexample: local at 0 s, global at 10 s,
both playing, no message age. -/
def seekInputs : SyncInputs := ⟨0, false, 10, false, 0, true, true⟩

/-- C5 (counterexample): starting from the default engine with the slowdown
flag set, a do-seek input with equal pause states yields
`[Seek 10, ResetSpeed]` — the `ResetSpeed` is an action other than a
preceding `SetPaused`, so the frozen claim ("no other action appears in the
returned list") is false at this input. -/
theorem c5_do_seek_counterexample :
    seekInputs.do_seek = true ∧
    seekInputs.local_paused = seekInputs.global_paused ∧
    (({ SyncEngine.new with slowdown_active := true }).calculate_sync_actions 0
        seekInputs).1 = [SyncAction.Seek 10, SyncAction.ResetSpeed] := by
  refine ⟨rfl, rfl, ?_⟩
  simp [SyncEngine.calculate_sync_actions, SyncEngine.new, seekInputs]

/-- C5 (witness): the amended do-seek theorem at the default engine and the
concrete do-seek input. -/
theorem c5_do_seek_decision_witness :
    (SyncEngine.new.calculate_sync_actions 0 seekInputs).1 =
      (if seekInputs.local_paused != seekInputs.global_paused then
        [SyncAction.SetPaused seekInputs.global_paused]
      else []) ++
      [SyncAction.Seek (if seekInputs.global_paused then seekInputs.global_position
        else seekInputs.global_position + seekInputs.message_age)] ++
      (if SyncEngine.new.slowdown_active then [SyncAction.ResetSpeed] else []) ∧
    (SyncEngine.new.calculate_sync_actions 0 seekInputs).2.slowdown_active = false :=
  c5_do_seek_decision SyncEngine.new 0 seekInputs rfl

end Syncplay

namespace Syncplay

/-- The `IgnoringOnTheFlyState` struct of `app_state.rs` (two `u32`
counters). -/
structure IgnoringOnTheFlyState where
  server : ℕ
  client : ℕ
  deriving DecidableEq

/-- `u32::MAX`, the saturation bound of `saturating_add`. -/
def U32_MAX : ℕ := 2 ^ 32 - 1

/-- `update_ignoring_on_the_fly` of `commands/connection.rs`: a server
counter in the message overwrites ours and clears the client counter; a
matching client counter clears it. -/
def update_ignoring_on_the_fly (loc : IgnoringOnTheFlyState)
    (ignoring : IgnoringInfo) : IgnoringOnTheFlyState :=
  match ignoring.server with
  | some server => { server := server, client := 0 }
  | none =>
      match ignoring.client with
      | some client =>
          if client = loc.client then { loc with client := 0 } else loc
      | none => loc

/-- `send_state_message` of `commands/connection.rs`, as a pure function of
the counter state: returns the built `StateMessage` and the new counters.
The ping block values (`new_timestamp`, `get_rtt`) are passed in. -/
def send_state_message (ignoring : IgnoringOnTheFlyState)
    (playstate : Option PlayState) (latency_calculation : Option ℚ)
    (client_latency_calculation : ℚ) (client_rtt : ℚ) (state_change : Bool) :
    StateMessage × IgnoringOnTheFlyState :=
  let client_ignore_is_not_set := (ignoring.client == 0) || (ignoring.server != 0)
  let playstate := if client_ignore_is_not_set then playstate else none
  let client' := if state_change then min (ignoring.client + 1) U32_MAX
    else ignoring.client
  let ignoring_info :=
    if (ignoring.server != 0) || (client' != 0) then
      some { server := if ignoring.server != 0 then some ignoring.server else none
             client := if client' != 0 then some client' else none }
    else none
  let server' := if ignoring.server != 0 then 0 else ignoring.server
  let ping : PingInfo :=
    ⟨latency_calculation, some client_latency_calculation, some client_rtt, none⟩
  (⟨playstate, some ping, ignoring_info⟩, ⟨server', client'⟩)

/-- C4: the State reply built by `send_state_message` suppresses the given
playstate exactly when the local client counter is positive and the local
server counter is zero; in every other counter configuration the playstate
argument is included as given. -/
theorem c4_playstate_suppression (ign : IgnoringOnTheFlyState)
    (playstate : Option PlayState) (lc : Option ℚ) (clc crtt : ℚ) (sc : Bool) :
    (send_state_message ign playstate lc clc crtt sc).1.playstate =
      if 0 < ign.client ∧ ign.server = 0 then none else playstate := by
  by_cases h1 : ign.client = 0
  · by_cases h2 : ign.server = 0 <;> simp [send_state_message, h1, h2]
  · have h1p : 0 < ign.client := Nat.pos_of_ne_zero h1
    by_cases h2 : ign.server = 0 <;> simp [send_state_message, h1, h2, h1p]

/-- C3: after processing a server State carrying
`ignoringOnTheFly.server = n` (with `n ≠ 0`, as a counter the server has
incremented), the next outbound State reply carries
`ignoringOnTheFly.server = n`, immediately after that send the local server
counter is zero, and the following reply no longer carries a server
counter — the value is sent exactly once. -/
theorem c3_server_counter_echoed_once (ign : IgnoringOnTheFlyState) (n : ℕ)
    (hn : n ≠ 0) (c : Option ℕ) (ps ps2 : Option PlayState) (lc lc2 : Option ℚ)
    (clc clc2 crtt crtt2 : ℚ) (sc sc2 : Bool) :
    ((send_state_message (update_ignoring_on_the_fly ign ⟨some n, c⟩)
        ps lc clc crtt sc).1.ignoring_on_the_fly.bind IgnoringInfo.server = some n) ∧
    ((send_state_message (update_ignoring_on_the_fly ign ⟨some n, c⟩)
        ps lc clc crtt sc).2.server = 0) ∧
    ((send_state_message
        (send_state_message (update_ignoring_on_the_fly ign ⟨some n, c⟩)
          ps lc clc crtt sc).2
        ps2 lc2 clc2 crtt2 sc2).1.ignoring_on_the_fly.bind IgnoringInfo.server =
      none) := by
  have hupd : update_ignoring_on_the_fly ign ⟨some n, c⟩ =
      ⟨n, 0⟩ := rfl
  rw [hupd]
  cases sc <;> cases sc2 <;>
    simp [send_state_message, hn, IgnoringInfo.server, U32_MAX]

/-- C3 (witness): the echo theorem at zero counters, `n = 1`, no playstate,
no latency echo, no state change. -/
theorem c3_server_counter_echoed_once_witness :
    ((send_state_message (update_ignoring_on_the_fly ⟨0, 0⟩ ⟨some 1, none⟩)
        none none 0 0 false).1.ignoring_on_the_fly.bind IgnoringInfo.server =
      some 1) ∧
    ((send_state_message (update_ignoring_on_the_fly ⟨0, 0⟩ ⟨some 1, none⟩)
        none none 0 0 false).2.server = 0) ∧
    ((send_state_message
        (send_state_message (update_ignoring_on_the_fly ⟨0, 0⟩ ⟨some 1, none⟩)
          none none 0 0 false).2
        none none 0 0 false).1.ignoring_on_the_fly.bind IgnoringInfo.server =
      none) :=
  c3_server_counter_echoed_once ⟨0, 0⟩ 1 (by decide) none none none none none
    0 0 0 0 false false

end Syncplay

namespace Syncplay

/-- Modelled from the spec: the `User` record of the client-state module
(`client_state` is referenced by `commands/connection.rs` but its source
file is not in the tree).  Spec section 3: `{ username, room, file?,
file_size?, file_duration?, is_ready, is_controller }` — only the fields
the autoplay check reads are carried here. -/
structure User where
  file : Option String
  is_ready : Bool
  deriving DecidableEq

/-- Modelled from the spec: the player-state snapshot of the capability
interface (`player/properties.rs` is referenced but not in the tree).
Spec section 4.I: `get_state() → { filename?, path?, position?, duration?,
paused?, speed? }`. -/
structure PlayerState where
  filename : Option String
  path : Option String
  position : Option ℚ
  duration : Option ℚ
  paused : Option Bool
  speed : Option ℚ
  deriving DecidableEq

/-- `autoplay_conditions_met` of `commands/connection.rs`, as a pure
function of the data it reads.  `same_filename` lives in the `utils` module
(not in the tree), so the filename matcher is passed as a parameter.  The
`users.len() as i32` cast is modelled as the exact integer (rooms near
`2^31` users are out of scope). -/
def autoplay_conditions_met (autoplay_enabled : Bool)
    (autoplay_require_same_filenames : Bool) (autoplay_min_users : ℤ)
    (users : List User) (current_file : Option String)
    (player_state : Option PlayerState)
    (same_filename : Option String → Option String → Bool) : Bool :=
  if !autoplay_enabled then false
  else if users.isEmpty then false
  else if users.any (fun user =>
      !user.is_ready ||
        (autoplay_require_same_filenames &&
          !same_filename current_file user.file)) then false
  else if 2 ≤ autoplay_min_users ∧ (users.length : ℤ) < autoplay_min_users then
    false
  else
    match player_state with
    | some ps => if ps.paused == some false then false else true
    | none => true

/-- C6: when the autoplay check passes.  The claim as frozen requires "the
local player is paused" — this fails on the code (see the counterexample):
the source only rejects a player state that affirmatively reports
`paused = Some(false)`, so an absent player or an unknown pause state
passes; the source also requires the room's user list to be nonempty and
only enforces the room-size bound when `autoplay_min_users ≥ 2`.  Amended
claim proved here: `autoplay_conditions_met` returns true exactly when
autoplay is enabled, the user list of the current room is nonempty, every
user in it is ready and (when the same-filenames flag is on) has a filename
matching ours, the room size is at least `autoplay_min_users` whenever that
setting is at least 2, and the local player state (if any) does not report
`paused = false`. -/
theorem c6_autoplay_conditions_iff (autoplay_enabled : Bool)
    (autoplay_require_same_filenames : Bool) (autoplay_min_users : ℤ)
    (users : List User) (current_file : Option String)
    (player_state : Option PlayerState)
    (same_filename : Option String → Option String → Bool) :
    autoplay_conditions_met autoplay_enabled autoplay_require_same_filenames
        autoplay_min_users users current_file player_state same_filename = true ↔
      (autoplay_enabled = true ∧ users ≠ [] ∧
        (∀ u ∈ users, u.is_ready = true ∧
          (autoplay_require_same_filenames = true →
            same_filename current_file u.file = true)) ∧
        (2 ≤ autoplay_min_users → autoplay_min_users ≤ (users.length : ℤ)) ∧
        (∀ ps, player_state = some ps → ps.paused ≠ some false)) := by
  cases autoplay_enabled with
  | false => simp [autoplay_conditions_met]
  | true =>
      by_cases hemp : users.isEmpty
      · simp [autoplay_conditions_met, hemp, List.isEmpty_iff.mp hemp]
      · have hne : users ≠ [] := by simpa [List.isEmpty_iff] using hemp
        by_cases hany : users.any (fun user =>
            !user.is_ready ||
              (autoplay_require_same_filenames &&
                !same_filename current_file user.file))
        · simp only [autoplay_conditions_met, hemp, hany]
          simp only [List.any_eq_true] at hany
          obtain ⟨u, hu, hprop⟩ := hany
          simp only [Bool.or_eq_true, Bool.not_eq_true', Bool.and_eq_true] at hprop
          constructor
          · intro hfalse
            simp at hfalse
          · rintro ⟨-, -, hall, -, -⟩
            obtain ⟨hready, hsame⟩ := hall u hu
            rcases hprop with hnr | ⟨hreq, hns⟩
            · rw [hready] at hnr
              simp at hnr
            · rw [hsame hreq] at hns
              simp at hns
        · have hall : ∀ u ∈ users, u.is_ready = true ∧
              (autoplay_require_same_filenames = true →
                same_filename current_file u.file = true) := by
            intro u hu
            rw [List.any_eq_true] at hany
            push_neg at hany
            have h3 := hany u hu
            simp at h3
            exact ⟨h3.1, fun hreq => h3.2 hreq⟩
          by_cases hmin : 2 ≤ autoplay_min_users ∧
              (users.length : ℤ) < autoplay_min_users
          · simp only [autoplay_conditions_met, hemp, hany]
            rw [if_pos hmin]
            constructor
            · intro hfalse
              simp at hfalse
            · rintro ⟨-, -, -, hbound, -⟩
              have h2le := hbound hmin.1
              have hlt := hmin.2
              omega
          · push_neg at hmin
            cases player_state with
            | none =>
                simp only [autoplay_conditions_met, hemp, hany]
                simp [hne, hall, hmin]
                constructor
                · intro hdisj
                  exact ⟨hall, fun h2 => by omega⟩
                · intro hrhs
                  omega
            | some ps =>
                by_cases hps : ps.paused = some false
                · simp only [autoplay_conditions_met, hemp, hany]
                  simp [hne, hall, hmin, hps]
                · simp only [autoplay_conditions_met, hemp, hany]
                  simp [hne, hall, hmin, hps]
                  constructor
                  · intro hdisj
                    exact ⟨hall, fun h2 => by omega⟩
                  · intro hrhs
                    omega

/-- An autoplay input where the player's pause state is unknown. -/
def unknownPauseState : PlayerState := ⟨none, none, none, none, none, none⟩

/-- C6 (counterexample): with autoplay enabled, one ready user, the
same-filenames flag off and `autoplay_min_users = -1`, the check passes
even though the local player does not report `paused = true` — its pause
state is unknown — refuting the frozen claim that the conditions hold
exactly when, among the rest, "the local player is paused". -/
theorem c6_autoplay_counterexample :
    autoplay_conditions_met true false (-1) [⟨none, true⟩] none
        (some unknownPauseState) (fun a b => a == b) = true ∧
    unknownPauseState.paused ≠ some true := by
  refine ⟨rfl, by decide⟩

end Syncplay
